import Mathlib

/-!
# OAuth 2 test client (`main.go`)

A shallow embedding of the login and callback handlers of the CLARIN OAuth 2
test client and of the two bearer-authenticated downstream calls, followed by
the properties established about them.

Go strings are Lean `String`s.  The outside world — the provider's token
endpoint behind `cfg.oauth.Exchange` and the network behind
`http.Client.Do` — is a parameter (`World`).  What a handler does to its
surroundings is returned as a record: the text printed to stdout and stderr,
the bytes written to the response writer, the outbound calls in the order
they were made, and the value of a `panic` that left the handler.
-/

namespace OAuthTestClient

/-! ## Configuration (`main.go` lines 88-107) -/

/-- The provider endpoints, `oauth2.Endpoint`. -/
structure Endpoint where
  AuthURL : String
  TokenURL : String
deriving DecidableEq, Repr

/-- The fields of `oauth2.Config` the program sets. -/
structure OAuthConfig where
  ClientID : String
  ClientSecret : String
  RedirectURL : String
  Scopes : List String
  Endpoint : Endpoint
deriving DecidableEq, Repr

/-- The program's `Config` struct. -/
structure Config where
  oauth : OAuthConfig
  tokenValidationURL : String
  userInfoURL : String
deriving DecidableEq, Repr

/-- The package-level `cfg` value. -/
def cfg : Config where
  oauth :=
    { ClientID := "test"
      ClientSecret := "Abcdefghij"
      RedirectURL := "http://localhost:3000/callback"
      Scopes := ["user_profile"]
      Endpoint :=
        { AuthURL := "https://pilot1.idm.clarin.eu/oauth2-as/oauth2-authz"
          TokenURL := "https://pilot1.idm.clarin.eu/oauth2/token" } }
  tokenValidationURL := "https://pilot1.idm.clarin.eu/oauth2/tokeninfo"
  userInfoURL := "https://pilot1.idm.clarin.eu/oauth2/userinfo"

/-! ## The outside world -/

/-- An outbound HTTP request as handed to `http.Client.Do`: method, URL, the
header fields added to it, and the body reader (`none` for the `nil` body). -/
structure Request where
  method : String
  url : String
  header : List (String × String)
  body : Option String
deriving DecidableEq, Repr

/-- An inbound HTTP response: the status line text, the header map as the pairs
the `range` loop visits (in the order it visits them), and the body read by
`ioutil.ReadAll`. -/
structure Response where
  Status : String
  Header : List (String × List String)
  Body : String
deriving DecidableEq, Repr

/-- The token returned by the exchange.  `expired` is the outcome of the
library's clock comparison (`t.expired()`) at the time `Valid` is called. -/
structure Token where
  AccessToken : String
  expired : Bool
deriving DecidableEq, Repr

/-- Modelled from the spec: the library method `oauth2.Token.Valid`, whose
source is outside `main.go` — "structural validity (non-empty, non-expired per
local clock)": a non-empty access token that has not expired. -/
def Token.Valid (t : Token) : Bool :=
  t.AccessToken != "" && !t.expired

/-- The collaborators the handlers call into.  An `Except.error` carries the
text of the Go `error` (`err.Error()`). -/
structure World where
  exchange : String → Except String Token
  httpDo : Request → Except String Response

/-- An outbound network call. -/
inductive Call where
  | exchange (code : String)
  | http (req : Request)
deriving DecidableEq, Repr

/-- What one invocation of a handler did. -/
structure Run where
  stdout : String
  stderr : String
  body : String
  calls : List Call
  panic : Option String
deriving DecidableEq, Repr

/-! ## Formatting helpers (`fmt`) -/

/-- The verb `%43s` and its like: right-justify in a field of `width` runes. -/
def padLeft (width : Nat) (s : String) : String :=
  String.mk (List.replicate (width - s.length) ' ') ++ s

/-- The verb `%s` applied to a `[]string`: the elements, space separated, in
square brackets. -/
def fmtStrings (vs : List String) : String :=
  "[" ++ " ".intercalate vs ++ "]"

/-- One pass of the loop body `result += fmt.Sprintf("    %s=%s\n", name, value)`. -/
def headerLine (h : String × List String) : String :=
  "    " ++ h.1 ++ "=" ++ fmtStrings h.2 ++ "\n"

/-- The `for name, value := range resp.Header` loop, accumulating onto `result`. -/
def rangeHeaders (result : String) (hs : List (String × List String)) : String :=
  hs.foldl (fun acc h => acc ++ headerLine h) result

/-- The request built by `http.NewRequest(method, url, nil)` followed by
`req.Header.Add("Authorization", ...)`.  The method and the URL are constants
of the program that `http.NewRequest` accepts, so its error result, which the
program ignores, does not arise. -/
def bearerRequest (method url token : String) : Request :=
  { method := method, url := url,
    header := [("Authorization", "Bearer " ++ token)], body := none }

/-! ## The downstream calls (`main.go` lines 161-232) -/

/-- The function `validateToken`: the rendered trace, and the calls it made. -/
def validateToken (w : World) (token : String) : String × List Call :=
  let url := cfg.tokenValidationURL
  let method := "GET"
  let req_body := ""
  let result := ""
  let result := result ++ "Token validation:\n"
  let result := result ++ "  Request:\n"
  let result := result ++ ("    URL: " ++ url ++ "\n")
  let result := result ++ ("    Method: " ++ method ++ "\n")
  let result := result ++ ("    Headers: " ++ "Authorization" ++ "=" ++ ("Bearer " ++ token) ++ "\n")
  let result := result ++ ("    Body: " ++ req_body ++ "\n")
  let req := bearerRequest method url token
  match w.httpDo req with
  | .error err =>
    let result := result ++ ("  Request failed. Error: " ++ err ++ "\n")
    (result, [Call.http req])
  | .ok resp =>
    let result := result ++ "  Response:\n"
    let result := result ++ ("    Status: " ++ resp.Status ++ "\n")
    let result := result ++ "    Headers:\n"
    let result := rangeHeaders result resp.Header
    let result := result ++ ("    Body:" ++ resp.Body ++ "\n")
    (result, [Call.http req])

/-- The function `obtainUserInfo`: `Except.error` is the value of the `panic`
at line 216; the statements after it are never reached. -/
def obtainUserInfo (w : World) (token : String) : Except String String × List Call :=
  let url := cfg.userInfoURL
  let method := "GET"
  let req_body := ""
  let result := ""
  let result := result ++ "User info:\n"
  let result := result ++ "  Request:\n"
  let result := result ++ ("    URL: " ++ url ++ "\n")
  let result := result ++ ("    Method: " ++ method ++ "\n")
  let result := result ++ ("    Headers: " ++ "Authorization" ++ "=" ++ ("Bearer " ++ token) ++ "\n")
  let result := result ++ ("    Body: " ++ req_body ++ "\n")
  let req := bearerRequest method url token
  match w.httpDo req with
  | .error err => (.error err, [Call.http req])
  | .ok resp =>
    let result := result ++ "  Response:\n"
    let result := result ++ ("    Status: " ++ resp.Status ++ "\n")
    let result := result ++ "    Headers:\n"
    let result := rangeHeaders result resp.Header
    let result := result ++ ("    Body: " ++ resp.Body ++ "\n")
    (.ok result, [Call.http req])

/-! ## URL query strings (`net/url`) and the authorization URL (`oauth2`)

`loginHandler` builds its redirect target with `cfg.oauth.AuthCodeURL`, which
belongs to `golang.org/x/oauth2` and encodes the parameters with the standard
library's `url.Values.Encode`; a client reads them back with `url.Parse` and
`url.ParseQuery`.  None of these is part of `main.go`; they are modelled here
after their documented behaviour.  The text of a URL is ASCII and is kept as
characters; what a decoded parameter holds is a Go string, that is bytes.
-/

/-- The bytes a Go string holds: the UTF-8 encoding of its text. -/
def goBytes (s : String) : List Nat :=
  (s.data.flatMap String.utf8EncodeChar).map UInt8.toNat

/-- The bytes `shouldEscape` leaves alone in a query component: the ASCII
letters and digits and `-`, `_`, `.`, `~`. -/
def isUnreserved (b : Nat) : Bool :=
  (97 ≤ b && b ≤ 122) || (65 ≤ b && b ≤ 90) || (48 ≤ b && b ≤ 57)
    || b == 45 || b == 95 || b == 46 || b == 126

/-- The table lookup `upperhex[n]`. -/
def upperhex (n : Nat) : Char :=
  "0123456789ABCDEF".data.getD n '0'

/-- One byte as `escape` writes it in a query component. -/
def escapeByte (b : Nat) : List Char :=
  if isUnreserved b then [Char.ofNat b]
  else if b = 32 then ['+']
  else ['%', upperhex (b / 16), upperhex (b % 16)]

/-- The function `url.QueryEscape`. -/
def QueryEscape (s : String) : String :=
  String.mk ((goBytes s).flatMap escapeByte)

/-- The function `ishex`. -/
def ishex (c : Char) : Bool :=
  ('0' ≤ c && c ≤ '9') || ('a' ≤ c && c ≤ 'f') || ('A' ≤ c && c ≤ 'F')

/-- The function `unhex`. -/
def unhex (c : Char) : Nat :=
  if '0' ≤ c && c ≤ '9' then c.toNat - '0'.toNat
  else if 'a' ≤ c && c ≤ 'f' then c.toNat - 'a'.toNat + 10
  else if 'A' ≤ c && c ≤ 'F' then c.toNat - 'A'.toNat + 10
  else 0

/-- The function `url.QueryUnescape` on the text of a query component: the
decoded bytes, or `none` for an invalid escape. -/
def unescape : List Char → Option (List Nat)
  | [] => some []
  | c :: rest =>
    if c = '%' then
      match rest with
      | h1 :: h2 :: rest2 =>
        if ishex h1 && ishex h2 then
          (unescape rest2).map (fun bs => (unhex h1 * 16 + unhex h2) :: bs)
        else none
      | _ => none
    else if c = '+' then (unescape rest).map (fun bs => 32 :: bs)
    else (unescape rest).map (fun bs => (String.utf8EncodeChar c).map UInt8.toNat ++ bs)

/-- The pieces of a text between the occurrences of `sep` (`strings.Split`). -/
def splitSep {α : Type} [DecidableEq α] (sep : α) : List α → List (List α)
  | [] => [[]]
  | c :: cs =>
    if c = sep then [] :: splitSep sep cs
    else
      match splitSep sep cs with
      | [] => [[c]]
      | seg :: segs => (c :: seg) :: segs

/-- The function `strings.Cut` for a one-byte separator: the text before the
first `sep` and the text after it. -/
def cut (sep : Char) : List Char → List Char × List Char
  | [] => ([], [])
  | c :: cs => if c = sep then ([], cs) else ((c :: (cut sep cs).1), (cut sep cs).2)

/-- Byte-wise lexicographic order on Go strings, `a < b`. -/
def bytesLt : List Nat → List Nat → Bool
  | _, [] => false
  | [], _ :: _ => true
  | a :: as, b :: bs => a < b || (a == b && bytesLt as bs)

/-- Insertion of one map entry into a list of entries sorted by key. -/
def insertByKey (e : String × List String) :
    List (String × List String) → List (String × List String)
  | [] => [e]
  | f :: fs => if bytesLt (goBytes f.1) (goBytes e.1) then f :: insertByKey e fs else e :: f :: fs

/-- The entries of a `url.Values` map in the order of their sorted keys. -/
def sortByKey (v : List (String × List String)) : List (String × List String) :=
  v.foldr insertByKey []

/-- The method `url.Values.Encode`: for each key in sorted order and each of
its values, `key=value` with both escaped, pieces joined by `&`. -/
def Encode (v : List (String × List String)) : String :=
  String.mk ((sortByKey v).foldl
    (fun buf e =>
      let keyEscaped := QueryEscape e.1
      e.2.foldl
        (fun buf val =>
          let buf := if buf.length > 0 then buf ++ ['&'] else buf
          buf ++ keyEscaped.data ++ ['='] ++ (QueryEscape val).data)
        buf)
    [])

/-- Modelled from the spec: the library method `oauth2.Config.AuthCodeURL`,
whose source is outside `main.go`.  The provider's authorization URL followed by
`?` (or `&`, when the URL already has a query) and the encoded parameters
`response_type=code`, `client_id`, and — each only when not empty —
`redirect_uri`, `scope` (the scopes joined by spaces) and `state`. -/
def AuthCodeURL (c : OAuthConfig) (state : String) : String :=
  let buf := c.Endpoint.AuthURL
  let v : List (String × List String) :=
    [("response_type", ["code"]), ("client_id", [c.ClientID])]
  let v := if c.RedirectURL != "" then v ++ [("redirect_uri", [c.RedirectURL])] else v
  let v := if c.Scopes.length > 0 then v ++ [("scope", [" ".intercalate c.Scopes])] else v
  let v := if state != "" then v ++ [("state", [state])] else v
  let buf := if '?' ∈ c.Endpoint.AuthURL.data then buf ++ "&" else buf ++ "?"
  buf ++ Encode v

/-- The `RawQuery` of `url.Parse`: with the fragment cut off at the first `#`,
the text after the first `?`. -/
def rawQuery (url : List Char) : List Char :=
  (cut '?' (cut '#' url).1).2

/-- One round of the loop of `url.ParseQuery`, on the piece `seg` between two
`&`: a piece with a `;` or a bad escape is dropped and flags an error, an empty
piece is skipped, any other adds its decoded `(key, value)` pair. -/
def parseSegment (acc : List (List Nat × List Nat) × Bool) (seg : List Char) :
    List (List Nat × List Nat) × Bool :=
  if ';' ∈ seg then (acc.1, false)
  else if seg = [] then acc
  else
    match unescape (cut '=' seg).1, unescape (cut '=' seg).2 with
    | some k, some v => (acc.1 ++ [(k, v)], acc.2)
    | _, _ => (acc.1, false)

/-- The function `url.ParseQuery`: the decoded `(key, value)` pairs in the
order they appear, and whether the whole query was well formed. -/
def ParseQuery (query : List Char) : List (List Nat × List Nat) × Bool :=
  (splitSep '&' query).foldl parseSegment ([], true)

/-- The characters that delimit the parts of a URL query: `&`, `=`, `;`, `#`
and `?`. -/
def isSeparator (c : Char) : Bool :=
  c == '&' || c == '=' || c == ';' || c == '#' || c == '?'

/-- The text `key=value` of one query parameter, both parts escaped. -/
def pairSegment (k v : String) : List Char :=
  (QueryEscape k).data ++ '=' :: (QueryEscape v).data

/-! ## The handlers (`main.go` lines 125-159) -/

/-- What one invocation of `loginHandler` did: the text printed to stdout, and
the status code and `Location` of the redirect written by `http.Redirect`. -/
structure Redirect where
  stdout : String
  status : Nat
  location : String
deriving DecidableEq, Repr

/-- The constant `http.StatusTemporaryRedirect`. -/
def StatusTemporaryRedirect : Nat := 307

/-- The function `loginHandler`, given the value `uniuri.New()` returned.  The
URL is absolute and ASCII, so `http.Redirect` sends it unchanged. -/
def loginHandler (oauthStateString : String) : Redirect :=
  let url := AuthCodeURL cfg.oauth oauthStateString
  { stdout := "Generated state=" ++ oauthStateString ++ "\n"
    status := StatusTemporaryRedirect
    location := url }

/-- The function `callbackHandler`, given the form values `state` and `code` of
the request.  A panic in `obtainUserInfo` unwinds through the handler before
anything is written to the response. -/
def callbackHandler (w : World) (state code : String) : Run :=
  let stdout := "state=" ++ state ++ ", authz code=" ++ code ++ "\n"
  match w.exchange code with
  | .error err =>
    { stdout := stdout
      stderr := "Failed to exchange authorization code for access token.\nError: " ++ err
      body := "Failed to exchange authorization code into access token."
      calls := [Call.exchange code]
      panic := none }
  | .ok token =>
    if !token.Valid then
      { stdout := stdout, stderr := "", body := "Invalid access token",
        calls := [Call.exchange code], panic := none }
    else
      let html := ""
      let html := html ++ ("Generated state:            " ++ padLeft 43 "" ++ "  state=" ++ state ++ "\n")
      let html := html ++ ("Authorization code:         " ++ code ++ ", state=" ++ state ++ "\n")
      let html := html ++ ("Exchanged for Access token: " ++ token.AccessToken ++ ", state=" ++ state ++ "\n")
      let html := html ++ "\n"
      let v := validateToken w token.AccessToken
      let html := html ++ v.1
      let html := html ++ "\n"
      let u := obtainUserInfo w token.AccessToken
      match u.1 with
      | .error p =>
        { stdout := stdout, stderr := "", body := "",
          calls := Call.exchange code :: (v.2 ++ u.2), panic := some p }
      | .ok info =>
        let html := html ++ info
        { stdout := stdout, stderr := "", body := html,
          calls := Call.exchange code :: (v.2 ++ u.2), panic := none }

/-! ## Names for what the traces are made of -/

/-- The request `validateToken` sends. -/
def validationRequest (token : String) : Request :=
  bearerRequest "GET" cfg.tokenValidationURL token

/-- The request `obtainUserInfo` sends. -/
def userInfoRequest (token : String) : Request :=
  bearerRequest "GET" cfg.userInfoURL token

/-- The lines rendering a response: status, one line per header, body after
the given label. -/
def responseLines (bodyLabel : String) (resp : Response) : String :=
  "  Response:\n" ++ ("    Status: " ++ (resp.Status ++ ("\n" ++ ("    Headers:\n"
    ++ (String.join (resp.Header.map headerLine) ++ (bodyLabel ++ (resp.Body ++ "\n")))))))

/-- The three opening lines of the trace and the empty line after them. -/
def traceHead (state code token : String) : String :=
  "Generated state:            " ++ (padLeft 43 "" ++ ("  state=" ++ (state ++ ("\n"
    ++ ("Authorization code:         " ++ (code ++ (", state=" ++ (state ++ ("\n"
    ++ ("Exchanged for Access token: " ++ (token ++ (", state=" ++ (state ++ ("\n" ++ "\n"))))))))))))))

/-! ## Text search -/

/-- The number of positions of `text` at which `pat` starts (the occurrences of
`pat` as a substring, overlapping ones included). -/
def occurrences (pat : List Char) : List Char → Nat
  | [] => if pat.isPrefixOf [] then 1 else 0
  | c :: cs => (if pat.isPrefixOf (c :: cs) then 1 else 0) + occurrences pat cs

/-- Whether `pat` occurs in `text` as a substring. -/
def containsText (text pat : String) : Prop :=
  pat.data <:+: text.data

instance (text pat : String) : Decidable (containsText text pat) := by
  unfold containsText
  infer_instance

/-! ## Sample worlds -/

/-- A successful downstream response. -/
def sampleResponse : Response where
  Status := "200 OK"
  Header := [("Content-Type", ["application/json"]), ("Vary", ["Accept", "Origin"])]
  Body := "sub=alice"

/-- Every call succeeds; the provider answers the exchange with `tok`. -/
def worldOk (tok : String) : World where
  exchange := fun _ => .ok { AccessToken := tok, expired := false }
  httpDo := fun _ => .ok sampleResponse

/-- The provider answers the exchange with an error status. -/
def worldExchangeFails : World where
  exchange := fun _ => .error "oauth2: cannot fetch token: 400 Bad Request"
  httpDo := fun _ => .ok sampleResponse

/-- The provider answers the exchange with a token that has already expired. -/
def worldExpired : World where
  exchange := fun _ => .ok { AccessToken := "tok123", expired := true }
  httpDo := fun _ => .ok sampleResponse

/-- The validation endpoint times out; everything else succeeds. -/
def worldValidationDown : World where
  exchange := fun _ => .ok { AccessToken := "tok123", expired := false }
  httpDo := fun req =>
    if req.url = cfg.tokenValidationURL then .error "context deadline exceeded"
    else .ok sampleResponse

/-- The user-info endpoint refuses the connection; everything else succeeds. -/
def worldUserInfoDown : World where
  exchange := fun _ => .ok { AccessToken := "tok123", expired := false }
  httpDo := fun req =>
    if req.url = cfg.userInfoURL then .error "connection refused"
    else .ok sampleResponse

/-! ## Runs that differ only in the access token -/

/-- Two exchange results that differ at most in the access token: both fail
with the same error, or both succeed with tokens of the same expiry status. -/
def sameButAccessToken : Except String Token → Except String Token → Prop
  | .ok t1, .ok t2 => t1.expired = t2.expired
  | .error e1, .error e2 => e1 = e2
  | _, _ => False

/-! ## Properties -/

theorem join_cons (a : String) (l : List String) :
    String.join (a :: l) = a ++ String.join l := by
  apply String.ext
  simp [String.data_join]

/-- The header loop appends one `headerLine` per visited header, in order. -/
theorem rangeHeaders_eq (result : String) (hs : List (String × List String)) :
    rangeHeaders result hs = result ++ String.join (hs.map headerLine) := by
  induction hs generalizing result with
  | nil =>
    apply String.ext
    simp [rangeHeaders, String.data_join]
  | cons h t ih =>
    have ih2 := ih (result ++ headerLine h)
    simp only [rangeHeaders, List.foldl_cons, List.map_cons] at ih2 ⊢
    rw [ih2, join_cons, String.append_assoc]

/-! ### The token exchange fails or yields an unusable token -/

/-- C2: when the token exchange returns an error, the response body is the
exchange-failure message and nothing else: the only outbound call is the
exchange itself (no downstream request is sent, so neither `validateToken` nor
`obtainUserInfo` ran), and the body has neither a "Token validation:" nor a
"User info:" section. -/
theorem callbackHandler_exchange_failed (w : World) (state code err : String)
    (h : w.exchange code = .error err) :
    (callbackHandler w state code).body
        = "Failed to exchange authorization code into access token." ∧
      (callbackHandler w state code).calls = [Call.exchange code] ∧
      (∀ req, Call.http req ∉ (callbackHandler w state code).calls) ∧
      ¬ containsText (callbackHandler w state code).body "Token validation:" ∧
      ¬ containsText (callbackHandler w state code).body "User info:" ∧
      (callbackHandler w state code).panic = none := by
  have hb : (callbackHandler w state code).body
      = "Failed to exchange authorization code into access token." := by
    simp [callbackHandler, h]
  have hc : (callbackHandler w state code).calls = [Call.exchange code] := by
    simp [callbackHandler, h]
  refine ⟨hb, hc, ?_, ?_, ?_, ?_⟩
  · intro req
    simp [hc]
  · rw [hb]
    decide
  · rw [hb]
    decide
  · simp [callbackHandler, h]

theorem callbackHandler_exchange_failed_witness :
    (callbackHandler worldExchangeFails "st" "c0de").body
        = "Failed to exchange authorization code into access token." ∧
      (callbackHandler worldExchangeFails "st" "c0de").calls = [Call.exchange "c0de"] ∧
      (∀ req, Call.http req ∉ (callbackHandler worldExchangeFails "st" "c0de").calls) ∧
      ¬ containsText (callbackHandler worldExchangeFails "st" "c0de").body "Token validation:" ∧
      ¬ containsText (callbackHandler worldExchangeFails "st" "c0de").body "User info:" ∧
      (callbackHandler worldExchangeFails "st" "c0de").panic = none :=
  callbackHandler_exchange_failed worldExchangeFails "st" "c0de"
    "oauth2: cannot fetch token: 400 Bad Request" rfl

/-- C3: when the exchange succeeds but the token is not valid (empty access
token, or expired), the whole response body is "Invalid access token" and the
handler returns before any downstream call: the exchange is the only outbound
call. -/
theorem callbackHandler_invalid_token (w : World) (state code : String) (token : Token)
    (h : w.exchange code = .ok token)
    (hv : token.AccessToken = "" ∨ token.expired = true) :
    (callbackHandler w state code).body = "Invalid access token" ∧
      (callbackHandler w state code).calls = [Call.exchange code] ∧
      (∀ req, Call.http req ∉ (callbackHandler w state code).calls) ∧
      (callbackHandler w state code).panic = none := by
  have hv2 : token.Valid = false := by
    rcases hv with hv | hv <;> simp [Token.Valid, hv]
  have hc : (callbackHandler w state code).calls = [Call.exchange code] := by
    simp [callbackHandler, h, hv2]
  refine ⟨?_, hc, ?_, ?_⟩
  · simp [callbackHandler, h, hv2]
  · intro req
    simp [hc]
  · simp [callbackHandler, h, hv2]

theorem callbackHandler_invalid_token_witness :
    (callbackHandler worldExpired "st" "c0de").body = "Invalid access token" ∧
      (callbackHandler worldExpired "st" "c0de").calls = [Call.exchange "c0de"] ∧
      (∀ req, Call.http req ∉ (callbackHandler worldExpired "st" "c0de").calls) ∧
      (callbackHandler worldExpired "st" "c0de").panic = none :=
  callbackHandler_invalid_token worldExpired "st" "c0de"
    { AccessToken := "tok123", expired := true } rfl (Or.inr rfl)

/-! ### The downstream calls -/

theorem validateToken_of_error (w : World) (token err : String)
    (hd : w.httpDo (validationRequest token) = .error err) :
    validateToken w token
      = ("Token validation:\n" ++ ("  Request:\n" ++ ("    URL: " ++ (cfg.tokenValidationURL
          ++ ("\n" ++ ("    Method: GET\n" ++ ("    Headers: Authorization=Bearer " ++ (token
          ++ ("\n" ++ ("    Body: \n" ++ ("  Request failed. Error: " ++ (err ++ "\n"))))))))))),
         [Call.http (validationRequest token)]) := by
  unfold validationRequest at hd
  simp only [validateToken, hd, validationRequest]
  refine Prod.ext ?_ rfl
  apply String.ext
  simp only [String.data_append, List.append_assoc]
  rfl

theorem validateToken_of_ok (w : World) (token : String) (resp : Response)
    (hd : w.httpDo (validationRequest token) = .ok resp) :
    validateToken w token
      = ("Token validation:\n" ++ ("  Request:\n" ++ ("    URL: " ++ (cfg.tokenValidationURL
          ++ ("\n" ++ ("    Method: GET\n" ++ ("    Headers: Authorization=Bearer " ++ (token
          ++ ("\n" ++ ("    Body: \n" ++ responseLines "    Body:" resp))))))))),
         [Call.http (validationRequest token)]) := by
  unfold validationRequest at hd
  simp only [validateToken, hd, validationRequest, rangeHeaders_eq, responseLines]
  refine Prod.ext ?_ rfl
  apply String.ext
  simp only [String.data_append, List.append_assoc]
  rfl

theorem obtainUserInfo_of_error (w : World) (token err : String)
    (hd : w.httpDo (userInfoRequest token) = .error err) :
    obtainUserInfo w token = (.error err, [Call.http (userInfoRequest token)]) := by
  unfold userInfoRequest at hd
  simp only [obtainUserInfo, hd, userInfoRequest]

theorem obtainUserInfo_of_ok (w : World) (token : String) (resp : Response)
    (hd : w.httpDo (userInfoRequest token) = .ok resp) :
    obtainUserInfo w token
      = (.ok ("User info:\n" ++ ("  Request:\n" ++ ("    URL: " ++ (cfg.userInfoURL
          ++ ("\n" ++ ("    Method: GET\n" ++ ("    Headers: Authorization=Bearer " ++ (token
          ++ ("\n" ++ ("    Body: \n" ++ responseLines "    Body: " resp)))))))))),
         [Call.http (userInfoRequest token)]) := by
  unfold userInfoRequest at hd
  simp only [obtainUserInfo, hd, userInfoRequest, rangeHeaders_eq, responseLines]
  refine Prod.ext ?_ rfl
  refine congrArg Except.ok ?_
  apply String.ext
  simp only [String.data_append, List.append_assoc]
  rfl

/-! ### The rendered trace -/

theorem callbackHandler_of_valid (w : World) (state code : String) (token : Token)
    (V U : String) (cv cu : List Call)
    (h : w.exchange code = .ok token) (hv : token.Valid = true)
    (hV : validateToken w token.AccessToken = (V, cv))
    (hU : obtainUserInfo w token.AccessToken = (.ok U, cu)) :
    callbackHandler w state code
      = { stdout := "state=" ++ state ++ ", authz code=" ++ code ++ "\n"
          stderr := ""
          body := traceHead state code token.AccessToken ++ (V ++ ("\n" ++ U))
          calls := Call.exchange code :: (cv ++ cu)
          panic := none } := by
  simp only [callbackHandler, h, hv, hV, hU, traceHead]
  simp only [Bool.not_true, Bool.false_eq_true, if_false]
  congr 1
  apply String.ext
  simp only [String.data_append, List.append_assoc]
  rfl

theorem callbackHandler_of_panic (w : World) (state code : String) (token : Token)
    (p : String) (cu : List Call)
    (h : w.exchange code = .ok token) (hv : token.Valid = true)
    (hU : obtainUserInfo w token.AccessToken = (.error p, cu)) :
    callbackHandler w state code
      = { stdout := "state=" ++ state ++ ", authz code=" ++ code ++ "\n"
          stderr := ""
          body := ""
          calls := Call.exchange code :: ((validateToken w token.AccessToken).2 ++ cu)
          panic := some p } := by
  simp only [callbackHandler, h, hv, hU]
  simp only [Bool.not_true, Bool.false_eq_true, if_false]

/-- C6: with a valid token, a validation trace `V` and a user-info trace `U`,
the response body is exactly the "Generated state" line, the "Authorization
code" line, the "Exchanged for Access token" line, an empty line, `V`, an
empty line and `U`, in this order and with nothing else. -/
theorem callbackHandler_body_field_order (w : World) (state code : String) (token : Token)
    (V U : String)
    (h : w.exchange code = .ok token) (hv : token.Valid = true)
    (hV : (validateToken w token.AccessToken).1 = V)
    (hU : (obtainUserInfo w token.AccessToken).1 = .ok U) :
    (callbackHandler w state code).body
      = "Generated state:            "
          ++ "                                           " ++ "  state=" ++ state ++ "\n"
        ++ ("Authorization code:         " ++ code ++ ", state=" ++ state ++ "\n")
        ++ ("Exchanged for Access token: " ++ token.AccessToken ++ ", state=" ++ state ++ "\n")
        ++ "\n" ++ V ++ "\n" ++ U := by
  have hV2 : validateToken w token.AccessToken = (V, (validateToken w token.AccessToken).2) :=
    Prod.ext hV rfl
  have hU2 : obtainUserInfo w token.AccessToken
      = (.ok U, (obtainUserInfo w token.AccessToken).2) := Prod.ext hU rfl
  rw [callbackHandler_of_valid w state code token V U _ _ h hv hV2 hU2]
  have hp : padLeft 43 "" = "                                           " := by decide
  simp only [traceHead, hp]
  apply String.ext
  simp only [String.data_append, List.append_assoc]

theorem callbackHandler_body_field_order_witness :
    (callbackHandler (worldOk "tok123") "st" "c0de").body
      = "Generated state:            "
          ++ "                                           " ++ "  state=" ++ "st" ++ "\n"
        ++ ("Authorization code:         " ++ "c0de" ++ ", state=" ++ "st" ++ "\n")
        ++ ("Exchanged for Access token: "
              ++ (Token.mk "tok123" false).AccessToken ++ ", state=" ++ "st" ++ "\n")
        ++ "\n" ++ (validateToken (worldOk "tok123") "tok123").1 ++ "\n"
        ++ ("User info:\n" ++ ("  Request:\n" ++ ("    URL: " ++ (cfg.userInfoURL
          ++ ("\n" ++ ("    Method: GET\n" ++ ("    Headers: Authorization=Bearer " ++ ("tok123"
          ++ ("\n" ++ ("    Body: \n" ++ responseLines "    Body: " sampleResponse)))))))))) :=
  callbackHandler_body_field_order (worldOk "tok123") "st" "c0de"
    { AccessToken := "tok123", expired := false } _ _ rfl (by decide) rfl
    (congrArg Prod.fst (obtainUserInfo_of_ok (worldOk "tok123") "tok123" sampleResponse rfl))

/-- C8: `validateToken` hands `http.Client.Do` exactly one request, a GET to
the configured validation URL with the header `Authorization: Bearer <token>`
and no body, and the trace is made of that very request and of what the world
answers to it.  Whatever the answer is (response or transport error), the
trace starts with the heading followed by the request's URL, its method, its
header and an empty body; what follows is the rendering of the answer
`w.httpDo req` to that request — the error text after a transport error, the
status, headers and body of the response otherwise.  No other request reaches
the world: a world that answers this one request alike yields the same trace
and the same calls. -/
theorem validateToken_records_sent_request (w : World) (token : String) :
    ∃ req rest,
      (validateToken w token).2 = [Call.http req] ∧
      req = { method := "GET", url := cfg.tokenValidationURL,
              header := [("Authorization", "Bearer " ++ token)], body := none } ∧
      cfg.tokenValidationURL = "https://pilot1.idm.clarin.eu/oauth2/tokeninfo" ∧
      (validateToken w token).1
        = "Token validation:\n" ++ ("  Request:\n" ++ ("    URL: " ++ (req.url ++ ("\n"
            ++ ("    Method: " ++ (req.method ++ ("\n"
            ++ ("    Headers: Authorization=Bearer " ++ (token ++ ("\n"
            ++ ("    Body: " ++ ("" ++ ("\n" ++ rest))))))))))))) ∧
      rest
        = (match w.httpDo req with
           | .error err => "  Request failed. Error: " ++ (err ++ "\n")
           | .ok resp =>
             "  Response:\n" ++ ("    Status: " ++ (resp.Status ++ ("\n" ++ ("    Headers:\n"
               ++ (String.join (resp.Header.map
                     (fun nv => "    " ++ nv.1 ++ "=" ++ fmtStrings nv.2 ++ "\n"))
               ++ ("    Body:" ++ (resp.Body ++ "\n")))))))) ∧
      (∀ w2 : World, w2.httpDo req = w.httpDo req →
        validateToken w2 token = validateToken w token) := by
  have hreq : validationRequest token
      = { method := "GET", url := cfg.tokenValidationURL,
          header := [("Authorization", "Bearer " ++ token)], body := none } := rfl
  have hsame : ∀ w2 : World, w2.httpDo (validationRequest token) = w.httpDo (validationRequest token) →
      validateToken w2 token = validateToken w token := by
    intro w2 h2
    cases hd : w.httpDo (validationRequest token) with
    | error err =>
      rw [validateToken_of_error w token err hd, validateToken_of_error w2 token err (h2.trans hd)]
    | ok resp =>
      rw [validateToken_of_ok w token resp hd, validateToken_of_ok w2 token resp (h2.trans hd)]
  cases hd : w.httpDo (validationRequest token) with
  | error err =>
    refine ⟨validationRequest token, "  Request failed. Error: " ++ (err ++ "\n"),
      ?_, hreq, rfl, ?_, ?_, hsame⟩
    · rw [validateToken_of_error w token err hd]
    · rw [validateToken_of_error w token err hd]
      apply String.ext
      simp only [String.data_append, List.append_assoc]
      rfl
    · rw [hd]
  | ok resp =>
    refine ⟨validationRequest token, responseLines "    Body:" resp, ?_, hreq, rfl, ?_, ?_, hsame⟩
    · rw [validateToken_of_ok w token resp hd]
    · rw [validateToken_of_ok w token resp hd]
      apply String.ext
      simp only [String.data_append, List.append_assoc]
      rfl
    · rw [hd]
      rfl

/-- C5: with a valid token, a validation call that fails with a transport
error and a user-info call that succeeds, the response body is the three
opening lines, then the validation request detail followed by
"  Request failed. Error: <error>", then the complete user-info trace: request
detail, response status, one line for every response header, response body. -/
theorem callbackHandler_partial_failure (w : World) (state code err : String)
    (token : Token) (resp : Response)
    (h : w.exchange code = .ok token) (hv : token.Valid = true)
    (hd1 : w.httpDo (validationRequest token.AccessToken) = .error err)
    (hd2 : w.httpDo (userInfoRequest token.AccessToken) = .ok resp) :
    (callbackHandler w state code).body
      = traceHead state code token.AccessToken
        ++ "Token validation:\n" ++ "  Request:\n"
        ++ "    URL: " ++ cfg.tokenValidationURL ++ "\n"
        ++ "    Method: GET\n"
        ++ "    Headers: Authorization=Bearer " ++ token.AccessToken ++ "\n"
        ++ "    Body: \n"
        ++ "  Request failed. Error: " ++ err ++ "\n"
        ++ "\n"
        ++ "User info:\n" ++ "  Request:\n"
        ++ "    URL: " ++ cfg.userInfoURL ++ "\n"
        ++ "    Method: GET\n"
        ++ "    Headers: Authorization=Bearer " ++ token.AccessToken ++ "\n"
        ++ "    Body: \n"
        ++ "  Response:\n"
        ++ "    Status: " ++ resp.Status ++ "\n"
        ++ "    Headers:\n"
        ++ String.join (resp.Header.map
              (fun nv => "    " ++ nv.1 ++ "=" ++ fmtStrings nv.2 ++ "\n"))
        ++ "    Body: " ++ resp.Body ++ "\n" ∧
      (∀ nv ∈ resp.Header, containsText (callbackHandler w state code).body
          ("    " ++ nv.1 ++ "=" ++ fmtStrings nv.2 ++ "\n")) := by
  have hb := callbackHandler_of_valid w state code token _ _ _ _ h hv
    (validateToken_of_error w token.AccessToken err hd1)
    (obtainUserInfo_of_ok w token.AccessToken resp hd2)
  have hl : (fun nv : String × List String => "    " ++ nv.1 ++ "=" ++ fmtStrings nv.2 ++ "\n")
      = headerLine := rfl
  have hbody : (callbackHandler w state code).body
      = traceHead state code token.AccessToken
        ++ "Token validation:\n" ++ "  Request:\n"
        ++ "    URL: " ++ cfg.tokenValidationURL ++ "\n"
        ++ "    Method: GET\n"
        ++ "    Headers: Authorization=Bearer " ++ token.AccessToken ++ "\n"
        ++ "    Body: \n"
        ++ "  Request failed. Error: " ++ err ++ "\n"
        ++ "\n"
        ++ "User info:\n" ++ "  Request:\n"
        ++ "    URL: " ++ cfg.userInfoURL ++ "\n"
        ++ "    Method: GET\n"
        ++ "    Headers: Authorization=Bearer " ++ token.AccessToken ++ "\n"
        ++ "    Body: \n"
        ++ "  Response:\n"
        ++ "    Status: " ++ resp.Status ++ "\n"
        ++ "    Headers:\n"
        ++ String.join (resp.Header.map headerLine)
        ++ "    Body: " ++ resp.Body ++ "\n" := by
    rw [hb]
    apply String.ext
    simp only [responseLines, String.data_append, List.append_assoc]
  refine ⟨?_, ?_⟩
  · rw [hl]
    exact hbody
  · intro nv hnv
    have hmem : (headerLine nv).data ∈ List.map String.data (List.map headerLine resp.Header) :=
      List.mem_map_of_mem _ (List.mem_map_of_mem _ hnv)
    have hin : (headerLine nv).data
        <:+: (List.map String.data (List.map headerLine resp.Header)).flatten :=
      List.infix_of_mem_flatten hmem
    rw [hbody]
    unfold containsText
    simp only [String.data_append, String.data_join]
    exact hin.trans ((List.suffix_append _ _).isInfix.trans
      ((List.prefix_append _ _).isInfix.trans ((List.prefix_append _ _).isInfix.trans
        (List.prefix_append _ _).isInfix)))

set_option maxRecDepth 100000 in
theorem callbackHandler_partial_failure_witness :
    worldValidationDown.httpDo (validationRequest "tok123") = .error "context deadline exceeded" ∧
    worldValidationDown.httpDo (userInfoRequest "tok123") = .ok sampleResponse ∧
    (callbackHandler worldValidationDown "st" "c0de").body
      = "Generated state:                                                         state=st\n"
        ++ "Authorization code:         c0de, state=st\n"
        ++ "Exchanged for Access token: tok123, state=st\n"
        ++ "\n"
        ++ "Token validation:\n"
        ++ "  Request:\n"
        ++ "    URL: https://pilot1.idm.clarin.eu/oauth2/tokeninfo\n"
        ++ "    Method: GET\n"
        ++ "    Headers: Authorization=Bearer tok123\n"
        ++ "    Body: \n"
        ++ "  Request failed. Error: context deadline exceeded\n"
        ++ "\n"
        ++ "User info:\n"
        ++ "  Request:\n"
        ++ "    URL: https://pilot1.idm.clarin.eu/oauth2/userinfo\n"
        ++ "    Method: GET\n"
        ++ "    Headers: Authorization=Bearer tok123\n"
        ++ "    Body: \n"
        ++ "  Response:\n"
        ++ "    Status: 200 OK\n"
        ++ "    Headers:\n"
        ++ "    Content-Type=[application/json]\n"
        ++ "    Vary=[Accept Origin]\n"
        ++ "    Body: sub=alice\n" :=
  ⟨rfl, rfl,
   (callbackHandler_partial_failure worldValidationDown "st" "c0de" "context deadline exceeded"
      { AccessToken := "tok123", expired := false } sampleResponse rfl (by decide)
      rfl rfl).1.trans rfl⟩

/-! ### The user-info call under a transport error -/

set_option maxRecDepth 100000 in
/-- C4, the code at the failing input: when the user-info call fails with
"connection refused", `obtainUserInfo` returns no trace but panics with the
error, and `callbackHandler` — although `validateToken` had produced its
trace — writes nothing to the response body. -/
theorem obtainUserInfo_network_error_panics :
    worldUserInfoDown.httpDo (userInfoRequest "tok123") = .error "connection refused" ∧
    (obtainUserInfo worldUserInfoDown "tok123").1 = .error "connection refused" ∧
    (validateToken worldUserInfoDown "tok123").1
      = "Token validation:\n  Request:\n"
        ++ "    URL: https://pilot1.idm.clarin.eu/oauth2/tokeninfo\n    Method: GET\n"
        ++ "    Headers: Authorization=Bearer tok123\n    Body: \n"
        ++ "  Response:\n    Status: 200 OK\n    Headers:\n"
        ++ "    Content-Type=[application/json]\n    Vary=[Accept Origin]\n"
        ++ "    Body:sub=alice\n" ∧
    callbackHandler worldUserInfoDown "st" "c0de"
      = { stdout := "state=st, authz code=c0de\n"
          stderr := ""
          body := ""
          calls := [Call.exchange "c0de", Call.http (validationRequest "tok123"),
                    Call.http (userInfoRequest "tok123")]
          panic := some "connection refused" } := by
  refine ⟨rfl, rfl, ?_, ?_⟩
  · rw [validateToken_of_ok worldUserInfoDown "tok123" sampleResponse rfl]
    decide
  · rw [callbackHandler_of_panic worldUserInfoDown "st" "c0de"
      { AccessToken := "tok123", expired := false } "connection refused" _ rfl (by decide)
      (obtainUserInfo_of_error worldUserInfoDown "tok123" "connection refused" rfl)]
    rw [validateToken_of_ok worldUserInfoDown "tok123" sampleResponse rfl]
    decide

/-! ### What reaches the process logs -/

/-- C10: the text `callbackHandler` writes to stdout and stderr does not depend
on the access token.  Two runs on the same `state` and `code` whose exchange
results differ only in the access token — whatever the downstream endpoints
answer in either run — print the same stdout and stderr: stdout is the line
with `state` and `code`, stderr is empty after a successful exchange and the
failure message with the exchange error otherwise.  The one other thing that
leaves the handler besides the response body, the value of a panic, is the
transport error of the user-info call. -/
theorem callbackHandler_logs_independent_of_token (w1 w2 : World) (state code : String)
    (h : sameButAccessToken (w1.exchange code) (w2.exchange code)) :
    (callbackHandler w1 state code).stdout = (callbackHandler w2 state code).stdout ∧
    (callbackHandler w1 state code).stderr = (callbackHandler w2 state code).stderr ∧
    (callbackHandler w1 state code).stdout = "state=" ++ state ++ ", authz code=" ++ code ++ "\n" ∧
    (callbackHandler w1 state code).stderr
      = (match w1.exchange code with
         | .ok _ => ""
         | .error err =>
           "Failed to exchange authorization code for access token.\nError: " ++ err) ∧
    (∀ p, (callbackHandler w1 state code).panic = some p →
      ∃ token, w1.exchange code = .ok token ∧
        w1.httpDo (userInfoRequest token.AccessToken) = .error p) := by
  have hpanic : ∀ p, (callbackHandler w1 state code).panic = some p →
      ∃ token, w1.exchange code = .ok token ∧
        w1.httpDo (userInfoRequest token.AccessToken) = .error p := by
    intro p hp
    unfold callbackHandler at hp
    cases hx : w1.exchange code with
    | error err => simp [hx] at hp
    | ok token =>
      refine ⟨token, rfl, ?_⟩
      cases hv : token.Valid with
      | false => simp [hx, hv] at hp
      | true =>
        cases hd : w1.httpDo (userInfoRequest token.AccessToken) with
        | error e =>
          rw [hx] at hp
          simp only [hv, obtainUserInfo_of_error w1 token.AccessToken e hd] at hp
          simp at hp
          rw [hp]
        | ok resp =>
          rw [hx] at hp
          simp only [hv, obtainUserInfo_of_ok w1 token.AccessToken resp hd] at hp
          simp at hp
  have key : ∀ w : World,
      (callbackHandler w state code).stdout = "state=" ++ state ++ ", authz code=" ++ code ++ "\n" ∧
      (callbackHandler w state code).stderr
        = (match w.exchange code with
           | .ok _ => ""
           | .error err =>
             "Failed to exchange authorization code for access token.\nError: " ++ err) := by
    intro w
    unfold callbackHandler
    cases hx : w.exchange code with
    | error err => exact ⟨rfl, rfl⟩
    | ok token =>
      cases hv : token.Valid with
      | false => simp [hv]
      | true =>
        cases hu : (obtainUserInfo w token.AccessToken).1 with
        | error p => simp [hv, hu]
        | ok info => simp [hv, hu]
  refine ⟨(key w1).1.trans (key w2).1.symm, ?_, (key w1).1, (key w1).2, hpanic⟩
  rw [(key w1).2, (key w2).2]
  cases h1 : w1.exchange code <;> cases h2 : w2.exchange code <;>
    simp [sameButAccessToken, h1, h2] at h ⊢
  rw [h]

theorem callbackHandler_logs_independent_of_token_witness :
    (callbackHandler (worldOk "tok123") "st" "c0de").stdout
      = (callbackHandler (worldOk "another-token") "st" "c0de").stdout ∧
    (callbackHandler (worldOk "tok123") "st" "c0de").stderr
      = (callbackHandler (worldOk "another-token") "st" "c0de").stderr ∧
    (callbackHandler (worldOk "tok123") "st" "c0de").stdout
      = "state=" ++ "st" ++ ", authz code=" ++ "c0de" ++ "\n" ∧
    (callbackHandler (worldOk "tok123") "st" "c0de").stderr = "" :=
  have h := callbackHandler_logs_independent_of_token (worldOk "tok123")
    (worldOk "another-token") "st" "c0de" rfl
  ⟨h.1, h.2.1, h.2.2.1, h.2.2.2.1⟩

/-! ### Occurrences of the token in its line -/

theorem no_shifted_prefix_left (c : Char) (B : List Char) :
    ∀ (T A : List Char), A ≠ [] → c ∈ T → c ∉ A → ¬ T <+: A ++ (T ++ B) := by
  intro T
  induction T with
  | nil => intro A _ hc; simp at hc
  | cons t T ih =>
    intro A hA hc hcA hpre
    cases A with
    | nil => exact hA rfl
    | cons a A =>
      rw [List.cons_append, List.cons_prefix_cons] at hpre
      obtain ⟨hta, hpre⟩ := hpre
      have hca : c ≠ a := fun h => hcA (by simp [h])
      have hcT : c ∈ T := by
        rcases List.mem_cons.1 hc with h | h
        · exact absurd (h.trans hta) hca
        · exact h
      have hpre2 : T <+: (A ++ [t]) ++ (T ++ B) := by
        simpa [List.append_assoc] using hpre
      refine ih (A ++ [t]) (by simp) hcT ?_ hpre2
      intro hmem
      rcases List.mem_append.1 hmem with h | h
      · exact hcA (List.mem_cons_of_mem _ h)
      · simp at h
        exact hca (h.trans hta)

theorem no_shifted_prefix_right (c : Char) (B : List Char) (hcB : c ∉ B) :
    ∀ (T2 T1 : List Char), T1 ≠ [] → c ∈ T1 ++ T2 → ¬ T1 ++ T2 <+: T2 ++ B := by
  intro T2
  induction T2 with
  | nil =>
    intro T1 _ hc hpre
    simp only [List.append_nil, List.nil_append] at hc hpre
    exact hcB (hpre.subset hc)
  | cons x T2 ih =>
    intro T1 hT1 hc hpre
    cases T1 with
    | nil => exact hT1 rfl
    | cons y T1 =>
      rw [List.cons_append, List.cons_append, List.cons_prefix_cons] at hpre
      obtain ⟨hyx, hpre⟩ := hpre
      have hpre2 : (T1 ++ [x]) ++ T2 <+: T2 ++ B := by
        simpa [List.append_assoc] using hpre
      refine ih (T1 ++ [x]) (by simp) ?_ hpre2
      subst hyx
      simp only [List.cons_append, List.mem_cons, List.mem_append, List.append_assoc] at hc ⊢
      tauto

theorem occurrences_eq_zero (c : Char) (T : List Char) (hc : c ∈ T) :
    ∀ X : List Char, c ∉ X → occurrences T X = 0 := by
  intro X
  induction X with
  | nil =>
    intro _
    cases T with
    | nil => simp at hc
    | cons t T => simp [occurrences, List.isPrefixOf]
  | cons x X ih =>
    intro hX
    have hX2 : c ∉ X := fun h => hX (List.mem_cons_of_mem _ h)
    have hnp : ¬ T <+: x :: X := fun h => hX (h.subset hc)
    simp [occurrences, hnp, ih hX2]

theorem occurrences_tail_zero (c : Char) (B : List Char) (hcB : c ∉ B) :
    ∀ (T2 T1 : List Char), T1 ≠ [] → c ∈ T1 ++ T2 → occurrences (T1 ++ T2) (T2 ++ B) = 0 := by
  intro T2
  induction T2 with
  | nil =>
    intro T1 _ hc
    exact occurrences_eq_zero c _ hc B hcB
  | cons x T2 ih =>
    intro T1 hT1 hc
    have hnp := no_shifted_prefix_right c B hcB (x :: T2) T1 hT1 hc
    have h2 := ih (T1 ++ [x]) (by simp) (by simpa [List.append_assoc] using hc)
    simp only [List.append_assoc, List.singleton_append] at h2
    simp only [List.cons_append] at hnp
    simp [occurrences, hnp, h2]

theorem occurrences_once (c : Char) (T B : List Char) (hc : c ∈ T) (hcB : c ∉ B) :
    ∀ A : List Char, c ∉ A → occurrences T (A ++ (T ++ B)) = 1 := by
  intro A
  induction A with
  | nil =>
    intro _
    cases T with
    | nil => simp at hc
    | cons t T =>
      have h0 := occurrences_tail_zero c B hcB T [t] (by simp) (by simpa using hc)
      simp only [List.singleton_append] at h0
      simp [occurrences, h0]
  | cons a A ih =>
    intro hA
    have hA2 : c ∉ A := fun h => hA (List.mem_cons_of_mem _ h)
    have hnp := no_shifted_prefix_left c B T (a :: A) (by simp) hc hA
    simp only [List.cons_append] at hnp
    simp [occurrences, hnp, ih hA2]

theorem occurrences_pos (T B : List Char) :
    ∀ A : List Char, 1 ≤ occurrences T (A ++ (T ++ B)) := by
  intro A
  induction A with
  | nil =>
    cases T with
    | nil => cases B <;> simp [occurrences]
    | cons t T => simp [occurrences]
  | cons a A ih =>
    have h : occurrences T (a :: A ++ (T ++ B))
        = (if T.isPrefixOf (a :: (A ++ (T ++ B))) then 1 else 0)
          + occurrences T (A ++ (T ++ B)) := rfl
    rw [h]
    omega

/-- C7 (as amended): in the rendered trace the third line is the label
"Exchanged for Access token: ", the access token, ", state=", the state and a
newline.  The token occurs in that line; it occurs there exactly once whenever
it has a character that is found in neither the label, ", state=", the state
nor is the newline. -/
theorem exchanged_line_token_occurrences (w : World) (state code U : String) (token : Token)
    (h : w.exchange code = .ok token) (hv : token.Valid = true)
    (hU : (obtainUserInfo w token.AccessToken).1 = .ok U) :
    ∃ line rest,
      line = "Exchanged for Access token: " ++ token.AccessToken ++ ", state=" ++ state ++ "\n" ∧
      (callbackHandler w state code).body
        = "Generated state:            "
            ++ "                                           " ++ "  state=" ++ state ++ "\n"
          ++ ("Authorization code:         " ++ code ++ ", state=" ++ state ++ "\n")
          ++ line ++ rest ∧
      1 ≤ occurrences token.AccessToken.data line.data ∧
      ((∃ c ∈ token.AccessToken.data,
          c ∉ ("Exchanged for Access token: " ++ ", state=" ++ state ++ "\n").data) →
        occurrences token.AccessToken.data line.data = 1) := by
  refine ⟨_, "\n" ++ (validateToken w token.AccessToken).1 ++ "\n" ++ U, rfl, ?_, ?_, ?_⟩
  · rw [callbackHandler_of_valid w state code token (validateToken w token.AccessToken).1 U
      (validateToken w token.AccessToken).2 (obtainUserInfo w token.AccessToken).2
      h hv rfl (Prod.ext hU rfl)]
    have hp : padLeft 43 "" = "                                           " := by decide
    simp only [traceHead, hp]
    apply String.ext
    simp only [String.data_append, List.append_assoc]
  · simp only [String.data_append, List.append_assoc]
    exact occurrences_pos _ _ _
  · rintro ⟨c, hc, hnot⟩
    simp only [String.data_append, List.append_assoc, List.mem_append, not_or] at hnot ⊢
    refine occurrences_once c _ _ hc ?_ _ hnot.1
    simp only [List.mem_append, not_or]
    exact ⟨hnot.2.1, hnot.2.2.1, hnot.2.2.2⟩

theorem exchanged_line_token_occurrences_witness :
    (worldOk "tok123").exchange "c0de" = .ok { AccessToken := "tok123", expired := false } ∧
    (Token.mk "tok123" false).Valid = true ∧
    '1' ∈ "tok123".data ∧
    '1' ∉ ("Exchanged for Access token: " ++ ", state=" ++ "st" ++ "\n").data ∧
    occurrences "tok123".data
      ("Exchanged for Access token: " ++ "tok123" ++ ", state=" ++ "st" ++ "\n").data = 1 := by
  refine ⟨rfl, by decide, by decide, by decide, ?_⟩
  obtain ⟨line, rest, hl, _, _, h1⟩ :=
    exchanged_line_token_occurrences (worldOk "tok123") "st" "c0de" _
      { AccessToken := "tok123", expired := false } rfl (by decide)
      (congrArg Prod.fst (obtainUserInfo_of_ok (worldOk "tok123") "tok123" sampleResponse rfl))
  subst hl
  exact h1 ⟨'1', by decide, by decide⟩

set_option maxRecDepth 100000 in
/-- C7 as stated fails: the provider returns the valid token "abc" and the
callback carries the state "abc"; the "Exchanged for Access token" line of the
rendered trace then contains the token twice. -/
theorem exchanged_line_token_twice :
    (worldOk "abc").exchange "c0de" = .ok { AccessToken := "abc", expired := false } ∧
    (Token.mk "abc" false).Valid = true ∧
    (callbackHandler (worldOk "abc") "abc" "c0de").body
      = "Generated state:                                                         state=abc\n"
        ++ "Authorization code:         c0de, state=abc\n"
        ++ "Exchanged for Access token: abc, state=abc\n"
        ++ "\n"
        ++ (validateToken (worldOk "abc") "abc").1 ++ "\n"
        ++ "User info:\n  Request:\n"
        ++ "    URL: https://pilot1.idm.clarin.eu/oauth2/userinfo\n    Method: GET\n"
        ++ "    Headers: Authorization=Bearer abc\n    Body: \n"
        ++ "  Response:\n    Status: 200 OK\n    Headers:\n"
        ++ "    Content-Type=[application/json]\n    Vary=[Accept Origin]\n"
        ++ "    Body: sub=alice\n" ∧
    occurrences "abc".data "Exchanged for Access token: abc, state=abc\n".data = 2 ∧
    occurrences "abc".data "Exchanged for Access token: abc, state=abc\n".data ≠ 1 := by
  refine ⟨rfl, by decide, ?_, by decide, by decide⟩
  decide

/-! ### The authorization URL and its query parameters -/

theorem hex_roundtrip : ∀ d, d < 16 → ishex (upperhex d) = true ∧ unhex (upperhex d) = d := by
  decide

theorem unreserved_char : ∀ b, b < 128 → isUnreserved b = true →
    Char.ofNat b ≠ '%' ∧ Char.ofNat b ≠ '+' ∧
      (String.utf8EncodeChar (Char.ofNat b)).map UInt8.toNat = [b] := by
  decide


theorem byte_split (b : Nat) : b / 16 * 16 + b % 16 = b := by omega

theorem unescape_cons (c : Char) (rest : List Char) :
    unescape (c :: rest)
      = if c = '%' then
          match rest with
          | h1 :: h2 :: rest2 =>
            if ishex h1 && ishex h2 then
              (unescape rest2).map (fun bs => (unhex h1 * 16 + unhex h2) :: bs)
            else none
          | _ => none
        else if c = '+' then (unescape rest).map (fun bs => 32 :: bs)
        else (unescape rest).map (fun bs => (String.utf8EncodeChar c).map UInt8.toNat ++ bs) := by
  cases rest with
  | nil => rfl
  | cons h1 r =>
    cases r with
    | nil => rfl
    | cons h2 r2 => rfl

theorem unescape_escapeByte (b : Nat) (hb : b < 256) (rest : List Char) :
    unescape (escapeByte b ++ rest) = (unescape rest).map (fun bs => b :: bs) := by
  unfold escapeByte
  by_cases hu : isUnreserved b = true
  · have hb2 : b < 128 := by
      simp only [isUnreserved, Bool.or_eq_true, Bool.and_eq_true, decide_eq_true_eq,
        beq_iff_eq] at hu
      omega
    obtain ⟨h1, h2, h3⟩ := unreserved_char b hb2 hu
    simp only [hu, if_true, List.singleton_append, unescape_cons, h1, h2, h3, if_false]
  · by_cases h32 : b = 32
    · subst h32
      simp only [hu, if_false, if_true, List.singleton_append, Bool.false_eq_true]
      rw [unescape_cons]
      simp
    · have hhi := hex_roundtrip (b / 16) (by omega)
      have hlo := hex_roundtrip (b % 16) (by omega)
      simp only [hu, h32, if_false, List.cons_append, List.nil_append, Bool.false_eq_true]
      rw [unescape_cons]
      simp only [if_true, hhi.1, hhi.2, hlo.1, hlo.2, byte_split, Bool.and_self]

theorem unescape_flatMap (bs : List Nat) (hbs : ∀ b ∈ bs, b < 256) (rest : List Char) :
    unescape (bs.flatMap escapeByte ++ rest) = (unescape rest).map (fun r => bs ++ r) := by
  induction bs with
  | nil => simp
  | cons b bs ih =>
    have hb := hbs b (List.mem_cons_self _ _)
    have ih2 := ih (fun x hx => hbs x (List.mem_cons_of_mem _ hx))
    rw [List.flatMap_cons, List.append_assoc, unescape_escapeByte b hb, ih2]
    cases unescape rest <;> simp

theorem goBytes_lt (s : String) : ∀ b ∈ goBytes s, b < 256 := by
  intro b hb
  simp only [goBytes, List.mem_map] at hb
  obtain ⟨x, _, rfl⟩ := hb
  exact x.toNat_lt

theorem unescape_QueryEscape (s : String) :
    unescape (QueryEscape s).data = some (goBytes s) := by
  have h := unescape_flatMap (goBytes s) (goBytes_lt s) []
  simpa [QueryEscape, unescape] using h

theorem unreserved_not_separator : ∀ b, b < 128 → isUnreserved b = true →
    isSeparator (Char.ofNat b) = false := by
  decide

theorem upperhex_not_separator : ∀ d, d < 16 → isSeparator (upperhex d) = false := by
  decide

theorem escapeByte_not_separator (b : Nat) (hb : b < 256) :
    ∀ c ∈ escapeByte b, isSeparator c = false := by
  intro c hc
  unfold escapeByte at hc
  by_cases hu : isUnreserved b = true
  · have hb2 : b < 128 := by
      simp only [isUnreserved, Bool.or_eq_true, Bool.and_eq_true, decide_eq_true_eq,
        beq_iff_eq] at hu
      omega
    simp only [hu, if_true, List.mem_singleton] at hc
    subst hc
    exact unreserved_not_separator b hb2 hu
  · by_cases h32 : b = 32
    · subst h32
      simp only [hu, if_false, if_true, List.mem_singleton, Bool.false_eq_true] at hc
      subst hc
      decide
    · simp only [hu, h32, if_false, List.mem_cons, List.mem_singleton, Bool.false_eq_true,
        List.not_mem_nil, or_false] at hc
      rcases hc with rfl | rfl | rfl
      · decide
      · exact upperhex_not_separator _ (by omega)
      · exact upperhex_not_separator _ (by omega)

theorem QueryEscape_not_separator (s : String) :
    ∀ c ∈ (QueryEscape s).data, isSeparator c = false := by
  intro c hc
  simp only [QueryEscape, List.mem_flatMap] at hc
  obtain ⟨b, hb, hcb⟩ := hc
  exact escapeByte_not_separator b (goBytes_lt s b hb) c hcb

theorem cut_of_not_mem (sep : Char) (a : List Char) (h : sep ∉ a) : cut sep a = (a, []) := by
  induction a with
  | nil => rfl
  | cons x a ih =>
    have hx : x ≠ sep := fun e => h (by simp [e])
    have ha : sep ∉ a := fun e => h (List.mem_cons_of_mem _ e)
    simp [cut, hx, ih ha]

theorem cut_append (sep : Char) (a b : List Char) (h : sep ∉ a) :
    cut sep (a ++ sep :: b) = (a, b) := by
  induction a with
  | nil => simp [cut]
  | cons x a ih =>
    have hx : x ≠ sep := fun e => h (by simp [e])
    have ha : sep ∉ a := fun e => h (List.mem_cons_of_mem _ e)
    simp [cut, hx, ih ha]

theorem splitSep_of_not_mem {α : Type} [DecidableEq α] (sep : α) (a : List α) (h : sep ∉ a) :
    splitSep sep a = [a] := by
  induction a with
  | nil => rfl
  | cons x a ih =>
    have hx : x ≠ sep := fun e => h (by simp [e])
    have ha : sep ∉ a := fun e => h (List.mem_cons_of_mem _ e)
    simp [splitSep, hx, ih ha]

theorem splitSep_append {α : Type} [DecidableEq α] (sep : α) (a b : List α) (h : sep ∉ a) :
    splitSep sep (a ++ sep :: b) = a :: splitSep sep b := by
  induction a with
  | nil => simp [splitSep]
  | cons x a ih =>
    have hx : x ≠ sep := fun e => h (by simp [e])
    have ha : sep ∉ a := fun e => h (List.mem_cons_of_mem _ e)
    simp [splitSep, hx, ih ha]

theorem not_mem_of_not_separator (sep : Char) (hsep : isSeparator sep = true) (l : List Char)
    (h : ∀ c ∈ l, isSeparator c = false) : sep ∉ l := by
  intro hmem
  have := h sep hmem
  rw [hsep] at this
  exact Bool.noConfusion this

theorem not_mem_pairSegment (sep : Char) (hsep : isSeparator sep = true) (hne : sep ≠ '=')
    (k v : String) : sep ∉ pairSegment k v := by
  unfold pairSegment
  intro hmem
  rcases List.mem_append.1 hmem with h | h
  · exact not_mem_of_not_separator sep hsep _ (QueryEscape_not_separator k) h
  · rcases List.mem_cons.1 h with h | h
    · exact hne h
    · exact not_mem_of_not_separator sep hsep _ (QueryEscape_not_separator v) h

theorem parseSegment_pairSegment (acc : List (List Nat × List Nat) × Bool) (k v : String) :
    parseSegment acc (pairSegment k v) = (acc.1 ++ [(goBytes k, goBytes v)], acc.2) := by
  have h1 : ';' ∉ pairSegment k v := not_mem_pairSegment ';' (by decide) (by decide) k v
  have h2 : pairSegment k v ≠ [] := by simp [pairSegment]
  have h3 : cut '=' (pairSegment k v) = ((QueryEscape k).data, (QueryEscape v).data) :=
    cut_append '=' _ _
      (not_mem_of_not_separator '=' (by decide) _ (QueryEscape_not_separator k))
  simp only [parseSegment, h1, h2, h3, if_false, unescape_QueryEscape]


set_option maxRecDepth 100000 in
theorem AuthCodeURL_cfg_data (state : String) (hs : state ≠ "") :
    (AuthCodeURL cfg.oauth state).data
      = cfg.oauth.Endpoint.AuthURL.data ++ '?' :: (pairSegment "client_id" "test" ++ '&' ::
          (pairSegment "redirect_uri" "http://localhost:3000/callback" ++ '&' ::
          (pairSegment "response_type" "code" ++ '&' ::
          (pairSegment "scope" "user_profile" ++ '&' :: pairSegment "state" state)))) := by
  have h : (state != "") = true := by simp [hs]
  unfold AuthCodeURL
  simp only [h, if_true]
  rfl

/-- C9: for every non-empty state value — `uniuri.New()` never returns an empty
one — `loginHandler` answers with status 307 and a `Location` that is the
provider's authorization URL followed by `?` and a query; parsing the query
back gives, without error, exactly the five parameters `client_id` = "test",
`redirect_uri` = "http://localhost:3000/callback", `response_type` = "code",
`scope` = "user_profile" (the one configured scope) and `state` = the state
value handed in. -/
theorem loginHandler_redirect_roundtrip (state : String) (hs : state ≠ "") :
    (loginHandler state).status = 307 ∧
    (cut '?' (loginHandler state).location.data).1 = cfg.oauth.Endpoint.AuthURL.data ∧
    ParseQuery (rawQuery (loginHandler state).location.data)
      = ([(goBytes "client_id", goBytes "test"),
          (goBytes "redirect_uri", goBytes "http://localhost:3000/callback"),
          (goBytes "response_type", goBytes "code"),
          (goBytes "scope", goBytes "user_profile"),
          (goBytes "state", goBytes state)], true) ∧
    cfg.oauth.ClientID = "test" ∧
    cfg.oauth.RedirectURL = "http://localhost:3000/callback" ∧
    splitSep 32 (goBytes "user_profile") = cfg.oauth.Scopes.map goBytes := by
  have hloc : (loginHandler state).location = AuthCodeURL cfg.oauth state := rfl
  have hA2 : '?' ∉ cfg.oauth.Endpoint.AuthURL.data := by decide
  refine ⟨rfl, ?_, ?_, rfl, rfl, by decide⟩
  · rw [hloc, AuthCodeURL_cfg_data state hs, cut_append _ _ _ hA2]
  rw [hloc, AuthCodeURL_cfg_data state hs]
  have hq : ∀ k v : String, '?' ∉ pairSegment k v :=
    not_mem_pairSegment '?' (by decide) (by decide)
  have hh : ∀ k v : String, '#' ∉ pairSegment k v :=
    not_mem_pairSegment '#' (by decide) (by decide)
  have ha : ∀ k v : String, '&' ∉ pairSegment k v :=
    not_mem_pairSegment '&' (by decide) (by decide)
  have hA1 : '#' ∉ cfg.oauth.Endpoint.AuthURL.data := by decide
  have hcut1 : ∀ q : List Char, '#' ∉ q →
      cut '#' (cfg.oauth.Endpoint.AuthURL.data ++ '?' :: q) = (cfg.oauth.Endpoint.AuthURL.data ++ '?' :: q, []) := by
    intro q hq
    apply cut_of_not_mem
    simp only [List.mem_append, List.mem_cons, not_or]
    exact ⟨hA1, by decide, hq⟩
  unfold rawQuery
  rw [hcut1]
  · simp only [cut_append _ _ _ hA2]
    unfold ParseQuery
    rw [splitSep_append _ _ _ (ha _ _), splitSep_append _ _ _ (ha _ _),
      splitSep_append _ _ _ (ha _ _), splitSep_append _ _ _ (ha _ _),
      splitSep_of_not_mem _ _ (ha _ _)]
    simp only [List.foldl, parseSegment_pairSegment, List.nil_append, List.cons_append]
  · simp only [List.mem_append, List.mem_cons, not_or]
    exact ⟨hh _ _, by decide, hh _ _, by decide, hh _ _, by decide, hh _ _, by decide, hh _ _⟩

theorem loginHandler_redirect_roundtrip_witness :
    "a1B2c3D4e5F6g7H8" ≠ "" ∧
    (loginHandler "a1B2c3D4e5F6g7H8").status = 307 ∧
    (cut '?' (loginHandler "a1B2c3D4e5F6g7H8").location.data).1
      = cfg.oauth.Endpoint.AuthURL.data ∧
    ParseQuery (rawQuery (loginHandler "a1B2c3D4e5F6g7H8").location.data)
      = ([(goBytes "client_id", goBytes "test"),
          (goBytes "redirect_uri", goBytes "http://localhost:3000/callback"),
          (goBytes "response_type", goBytes "code"),
          (goBytes "scope", goBytes "user_profile"),
          (goBytes "state", goBytes "a1B2c3D4e5F6g7H8")], true) ∧
    cfg.oauth.ClientID = "test" ∧
    cfg.oauth.RedirectURL = "http://localhost:3000/callback" ∧
    splitSep 32 (goBytes "user_profile") = cfg.oauth.Scopes.map goBytes :=
  ⟨by decide, loginHandler_redirect_roundtrip "a1B2c3D4e5F6g7H8" (by decide)⟩

/-! ### The `state` parameter of the callback -/

set_option maxRecDepth 100000 in
/-- C1 as stated fails: `/login` issues the state "a1B2c3D4e5F6g7H8", and a
callback carrying the different state "forged" is not rejected — the handler
calls the token endpoint with the received code, makes both downstream calls
and answers with the full trace. -/
theorem callbackHandler_accepts_forged_state :
    (loginHandler "a1B2c3D4e5F6g7H8").stdout = "Generated state=a1B2c3D4e5F6g7H8\n" ∧
    (loginHandler "a1B2c3D4e5F6g7H8").location
      = "https://pilot1.idm.clarin.eu/oauth2-as/oauth2-authz?client_id=test"
        ++ "&redirect_uri=http%3A%2F%2Flocalhost%3A3000%2Fcallback"
        ++ "&response_type=code&scope=user_profile&state=a1B2c3D4e5F6g7H8" ∧
    "forged" ≠ "a1B2c3D4e5F6g7H8" ∧
    callbackHandler (worldOk "tok123") "forged" "c0de"
      = { stdout := "state=forged, authz code=c0de\n"
          stderr := ""
          body :=
            "Generated state:                                                         state=forged\n"
            ++ "Authorization code:         c0de, state=forged\n"
            ++ "Exchanged for Access token: tok123, state=forged\n"
            ++ "\n"
            ++ "Token validation:\n  Request:\n"
            ++ "    URL: https://pilot1.idm.clarin.eu/oauth2/tokeninfo\n    Method: GET\n"
            ++ "    Headers: Authorization=Bearer tok123\n    Body: \n"
            ++ "  Response:\n    Status: 200 OK\n    Headers:\n"
            ++ "    Content-Type=[application/json]\n    Vary=[Accept Origin]\n"
            ++ "    Body:sub=alice\n"
            ++ "\n"
            ++ "User info:\n  Request:\n"
            ++ "    URL: https://pilot1.idm.clarin.eu/oauth2/userinfo\n    Method: GET\n"
            ++ "    Headers: Authorization=Bearer tok123\n    Body: \n"
            ++ "  Response:\n    Status: 200 OK\n    Headers:\n"
            ++ "    Content-Type=[application/json]\n    Vary=[Accept Origin]\n"
            ++ "    Body: sub=alice\n"
          calls := [Call.exchange "c0de", Call.http (validationRequest "tok123"),
                    Call.http (userInfoRequest "tok123")]
          panic := none } := by
  refine ⟨by decide, by decide, by decide, ?_⟩
  decide

/-- C1 (as amended): `callbackHandler` does not compare the `state` parameter
with anything.  For every callback — whether its `state` equals the value
`issued` by the preceding `/login` or not — the first outbound call is the
token exchange with the received code, and the outbound calls made and the
panic raised, if any, are those of the callback that carries the issued
state. -/
theorem callbackHandler_state_not_checked (w : World) (issued state code : String) :
    (callbackHandler w state code).calls.head? = some (Call.exchange code) ∧
    (callbackHandler w state code).calls = (callbackHandler w issued code).calls ∧
    (callbackHandler w state code).panic = (callbackHandler w issued code).panic := by
  unfold callbackHandler
  cases hx : w.exchange code with
  | error err => exact ⟨rfl, rfl, rfl⟩
  | ok token =>
    cases hv : token.Valid with
    | false => simp [hv]
    | true =>
      cases hu : (obtainUserInfo w token.AccessToken).1 with
      | error p => simp [hv, hu]
      | ok info => simp [hv, hu]

end OAuthTestClient
